import Mathlib

set_option maxRecDepth 4096

/-!
Verification development for the torpedo repository, centred on
src/src/hydrobond/hydrobond.ts: the model validation layer (Application,
Authorization, File, Post, PostBody, User, UserSettings), the API client
operations (getAuthorizeUrl, authorize, getTimeline) and the stream message
handler. JavaScript values flowing through the validators are embedded as
the JValue inductive; JavaScript numbers are embedded as JSNum, a rational
together with a NaN point, so that the NaN comparison semantics of the
range checks is captured. Fallible constructors (which throw in the source)
are embedded as functions into Except HydroError.
-/

namespace Hydrobond

/-- Model of a JavaScript number: either NaN or a rational value. The
source only compares, stores and forwards numbers, so rationals with an
explicit NaN point capture every behaviour the claims touch. -/
inductive JSNum where
  | nan : JSNum
  | num : ℚ → JSNum
deriving DecidableEq

/-- JavaScript strict greater-than: any comparison with NaN is false. -/
def JSNum.gt : JSNum → JSNum → Bool
  | .num a, .num b => decide (b < a)
  | _, _ => false

/-- JavaScript strict less-than: any comparison with NaN is false. -/
def JSNum.lt : JSNum → JSNum → Bool
  | .num a, .num b => decide (a < b)
  | _, _ => false

/-- Model of a JavaScript/JSON value as it reaches the validators. A
missing object property is modelled by absence of the key rather than by
an undefined constructor. -/
inductive JValue where
  | null : JValue
  | bool : Bool → JValue
  | num : JSNum → JValue
  | str : String → JValue
  | arr : List JValue → JValue
  | obj : List (String × JValue) → JValue

/-- First binding of a key in an object field list, as JavaScript property
lookup returns the (single) own property. -/
def jLookup (fields : List (String × JValue)) (key : String) : Option JValue :=
  match fields with
  | [] => none
  | (k, v) :: rest => if k = key then some v else jLookup rest key

/-- Error kinds of the spec taxonomy. The source throws plain Error
objects; the spec classifies them as ValidationError, ConfigError,
RangeError and StreamProtocolError, and the embedding carries the kind
together with the source message. -/
inductive HydroError where
  | validationError : String → HydroError
  | configError : String → HydroError
  | rangeError : String → HydroError
  | streamError : String → HydroError
deriving DecidableEq

/-- True exactly on the error results of a fallible operation. -/
def isError {α : Type} : Except HydroError α → Bool
  | .error _ => true
  | .ok _ => false

/-- True exactly on results that are a RangeError. -/
def isRangeError {α : Type} : Except HydroError α → Bool
  | .error (.rangeError _) => true
  | _ => false

/-- True exactly on results that are a ConfigError. -/
def isConfigError {α : Type} : Except HydroError α → Bool
  | .error (.configError _) => true
  | _ => false

/-- Character class of the screenName pattern: ASCII digits, ASCII
letters and the underscore. -/
def isWordChar (c : Char) : Bool :=
  c.isDigit || (('a' ≤ c && c ≤ 'z') || ('A' ≤ c && c ≤ 'Z')) || c = '_'

/-- Model of the regular expression match used for screenName: every
character in the word class and total length between 1 and 20. -/
def matchesScreenName (s : String) : Bool :=
  s.toList.all isWordChar && decide (1 ≤ s.length) && decide (s.length ≤ 20)

/-- Model of Validator.isValidDate, which in the source accepts strings
the JavaScript Date parser turns into a finite time value. The embedding
uses an executable conservative model: ISO 8601 combined date-time of the
shape YYYY-MM-DDTHH:MM:SSZ, which the JavaScript parser accepts. No claim
depends on which particular strings are date-parseable, only on the check
being applied. -/
def Validator.isValidDate (s : String) : Bool :=
  match s.toList with
  | [y1, y2, y3, y4, '-', m1, m2, '-', d1, d2, 'T',
     h1, h2, ':', n1, n2, ':', s1, s2, 'Z'] =>
    [y1, y2, y3, y4, m1, m2, d1, d2, h1, h2, n1, n2, s1, s2].all Char.isDigit
  | _ => false

/-- Model of Validator.isValidUrl, which in the source accepts strings the
URL constructor parses. The embedding uses an executable conservative
model: an http or https scheme followed by a nonempty remainder. No claim
depends on which particular strings are URL-parseable. -/
def Validator.isValidUrl (s : String) : Bool :=
  (s.startsWith "http://" && decide (7 < s.length)) ||
  (s.startsWith "https://" && decide (8 < s.length))

/-- Model of the cafy obj context: the value must be an object; yields its
field list. -/
def getObjFields (j : JValue) : Except HydroError (List (String × JValue)) :=
  match j with
  | .obj fields => .ok fields
  | _ => .error (.validationError "not an object")

/-- Model of a required num field. -/
def reqNum (fields : List (String × JValue)) (key : String) :
    Except HydroError JSNum :=
  match jLookup fields key with
  | some (.num n) => .ok n
  | _ => .error (.validationError key)

/-- Model of a required str field. -/
def reqStr (fields : List (String × JValue)) (key : String) :
    Except HydroError String :=
  match jLookup fields key with
  | some (.str s) => .ok s
  | _ => .error (.validationError key)

/-- Model of a required str field with a maximum length, as cafy str.max:
rejects strings longer than the bound. The source measures UTF-16 units;
the embedding measures characters, which agree on the inputs at issue. -/
def reqStrMax (fields : List (String × JValue)) (key : String) (max : Nat) :
    Except HydroError String :=
  match jLookup fields key with
  | some (.str s) => if s.length ≤ max then .ok s else .error (.validationError key)
  | _ => .error (.validationError key)

/-- Model of a required str field with a length range, as cafy str.range. -/
def reqStrRange (fields : List (String × JValue)) (key : String)
    (lo hi : Nat) : Except HydroError String :=
  match jLookup fields key with
  | some (.str s) =>
    if lo ≤ s.length ∧ s.length ≤ hi then .ok s
    else .error (.validationError key)
  | _ => .error (.validationError key)

/-- Model of the screenName field check, cafy str.match with the pattern
of one to twenty word characters. -/
def reqScreenName (fields : List (String × JValue)) (key : String) :
    Except HydroError String :=
  match jLookup fields key with
  | some (.str s) =>
    if matchesScreenName s then .ok s else .error (.validationError key)
  | _ => .error (.validationError key)

/-- Model of a required date field, Validator.isValidDate piped after the
str check. The source constructor then materialises new Date(s); the
embedding keeps the validated source string as the date value. -/
def reqDate (fields : List (String × JValue)) (key : String) :
    Except HydroError String :=
  match jLookup fields key with
  | some (.str s) =>
    if Validator.isValidDate s then .ok s else .error (.validationError key)
  | _ => .error (.validationError key)

/-- Model of a required url field, Validator.isValidUrl piped after the
str check. The source constructor then materialises new URL(s); the
embedding keeps the validated source string as the URL value. -/
def reqUrl (fields : List (String × JValue)) (key : String) :
    Except HydroError String :=
  match jLookup fields key with
  | some (.str s) =>
    if Validator.isValidUrl s then .ok s else .error (.validationError key)
  | _ => .error (.validationError key)

/-- Model of a required any field, cafy any: the property must be present
(not undefined); any present value passes. -/
def reqAny (fields : List (String × JValue)) (key : String) :
    Except HydroError JValue :=
  match jLookup fields key with
  | some v => .ok v
  | none => .error (.validationError key)

/-- Model of a required arr(any) field. -/
def reqArr (fields : List (String × JValue)) (key : String) :
    Except HydroError (List JValue) :=
  match jLookup fields key with
  | some (.arr xs) => .ok xs
  | _ => .error (.validationError key)

/-- Model of one element of an optional.array(num) field. -/
def asNumElem (j : JValue) : Except HydroError JSNum :=
  match j with
  | .num n => .ok n
  | _ => .error (.validationError "fileIds")

/-- Elementwise map where the function may throw, as an Array map whose
callback may throw: elements are processed in order and the first raised
error aborts the whole map. -/
def mapThrow {α β : Type} (f : α → Except HydroError β) :
    List α → Except HydroError (List β)
  | [] => .ok []
  | x :: xs => do
    let y ← f x
    let ys ← mapThrow f xs
    .ok (y :: ys)

/-- Model of the optional.array(num) field for fileIds: absent passes as
none; present values must be arrays of numbers. -/
def optNumArr (fields : List (String × JValue)) (key : String) :
    Except HydroError (Option (List JSNum)) :=
  match jLookup fields key with
  | none => .ok none
  | some (.arr xs) => (mapThrow asNumElem xs).map Option.some
  | some _ => .error (.validationError key)

/-- The Application entity of hydrobond.ts. -/
structure Application where
  id : JSNum
  name : String
deriving DecidableEq

/-- Application validation and construction: the validate call of the
class followed by the field copies of its constructor. -/
def Application.construct (j : JValue) : Except HydroError Application := do
  let fields ← getObjFields j
  let id ← reqNum fields "id"
  let name ← reqStr fields "name"
  .ok ⟨id, name⟩

/-- The User entity of hydrobond.ts. Date fields keep the validated
source string as the parsed date value. -/
structure User where
  createdAt : String
  id : JSNum
  name : String
  postsCount : JSNum
  screenName : String
  updatedAt : String
deriving DecidableEq

/-- User validation and construction: the validate call of the class
followed by the field copies of its constructor. -/
def User.construct (j : JValue) : Except HydroError User := do
  let fields ← getObjFields j
  let createdAt ← reqDate fields "createdAt"
  let id ← reqNum fields "id"
  let name ← reqStrRange fields "name" 1 20
  let postsCount ← reqNum fields "postsCount"
  let screenName ← reqScreenName fields "screenName"
  let updatedAt ← reqDate fields "updatedAt"
  .ok ⟨createdAt, id, name, postsCount, screenName, updatedAt⟩

/-- The UserSettings entity of hydrobond.ts. -/
structure UserSettings where
  name : String
deriving DecidableEq

/-- UserSettings validation and construction. -/
def UserSettings.construct (j : JValue) : Except HydroError UserSettings := do
  let fields ← getObjFields j
  let name ← reqStrRange fields "name" 1 20
  .ok ⟨name⟩

/-- One variant record of the File entity. The url field keeps the
validated source string as the parsed URL value. -/
structure FileVariant where
  id : JSNum
  score : JSNum
  extension : String
  type : String
  size : JSNum
  url : String
  mime : String
deriving DecidableEq

/-- Validation of a single variants element, the inner obj schema of the
File validator. -/
def FileVariant.construct (j : JValue) : Except HydroError FileVariant := do
  let fields ← getObjFields j
  let id ← reqNum fields "id"
  let score ← reqNum fields "score"
  let extension ← reqStr fields "extension"
  let type ← reqStr fields "type"
  let size ← reqNum fields "size"
  let url ← reqUrl fields "url"
  let mime ← reqStr fields "mime"
  .ok ⟨id, score, extension, type, size, url, mime⟩

/-- The File entity of hydrobond.ts. -/
structure File where
  id : JSNum
  name : String
  variants : List FileVariant
deriving DecidableEq

/-- File validation and construction: the validate call checks id, name
and the variants array elementwise; the constructor then copies the
variant fields, which the embedding fuses into one elementwise pass. -/
def File.construct (j : JValue) : Except HydroError File := do
  let fields ← getObjFields j
  let id ← reqNum fields "id"
  let name ← reqStr fields "name"
  let rawVariants ← reqArr fields "variants"
  let variants ← mapThrow FileVariant.construct rawVariants
  .ok ⟨id, name, variants⟩

/-- The Post entity of hydrobond.ts, with nested Application, User and
File entities. Date fields keep the validated source string. -/
structure Post where
  application : Application
  createdAt : String
  id : JSNum
  text : String
  updatedAt : String
  user : User
  files : List File

/-- Post validation and construction: the validate call accepts
application, user and files elements as any, then the constructor runs
new Application, new User and new File on them, so a nested validation
failure propagates as a failure of the Post construction. -/
def Post.construct (j : JValue) : Except HydroError Post := do
  let fields ← getObjFields j
  let rawApplication ← reqAny fields "application"
  let createdAt ← reqDate fields "createdAt"
  let id ← reqNum fields "id"
  let text ← reqStrMax fields "text" 512
  let updatedAt ← reqDate fields "updatedAt"
  let rawUser ← reqAny fields "user"
  let rawFiles ← reqArr fields "files"
  let application ← Application.construct rawApplication
  let user ← User.construct rawUser
  let files ← mapThrow File.construct rawFiles
  .ok ⟨application, createdAt, id, text, updatedAt, user, files⟩

/-- The PostBody entity of hydrobond.ts: outbound body of a post call. -/
structure PostBody where
  text : String
  fileIds : Option (List JSNum)
deriving DecidableEq

/-- PostBody validation and construction. -/
def PostBody.construct (j : JValue) : Except HydroError PostBody := do
  let fields ← getObjFields j
  let text ← reqStrMax fields "text" 512
  let fileIds ← optNumArr fields "fileIds"
  .ok ⟨text, fileIds⟩

/-- Hex digit of a value below sixteen, lowercase as Node buffer hex
encoding produces. -/
def hexChar (n : Nat) : Char :=
  if n < 10 then Char.ofNat ('0'.toNat + n) else Char.ofNat ('a'.toNat + (n - 10))

/-- Hex encoding of one byte: high nibble then low nibble. -/
def byteToHex (b : Nat) : List Char :=
  [hexChar (b / 16 % 16), hexChar (b % 16)]

/-- Model of crypto.randomBytes(n).toString applied with hex encoding:
the bytes are passed in explicitly since the embedding is deterministic. -/
def bytesToHex (bs : List Nat) : String :=
  ⟨(bs.map byteToHex).flatten⟩

/-- The Authorization record held by the client. -/
structure Authorization where
  accessToken : String
  clientId : String
  clientSecret : String
  stateText : String
  tokenType : String
deriving DecidableEq

/-- Well-typed input of the Authorization constructor, a Partial record
whose absent properties are none. The validate call of the class accepts
exactly such optional strings, so on these inputs it always passes. -/
structure AuthorizationInput where
  accessToken : Option String
  clientId : Option String
  clientSecret : Option String
  stateText : Option String
  tokenType : Option String

/-- JavaScript or-else on strings as the source writes with the logical
or operator: the empty string is falsy, so it is replaced by the default
exactly like an absent value. -/
def jsOrStr (v : Option String) (dflt : String) : String :=
  match v with
  | some s => if s = "" then dflt else s
  | none => dflt

/-- The Authorization constructor. The randBytes argument supplies the
eight random bytes the source draws in getStateText when no stateText
survives the or-else. -/
def Authorization.construct (a : AuthorizationInput) (randBytes : List Nat) :
    Authorization :=
  ⟨jsOrStr a.accessToken "",
   jsOrStr a.clientId "",
   jsOrStr a.clientSecret "",
   jsOrStr a.stateText (bytesToHex randBytes),
   jsOrStr a.tokenType "Bearer"⟩

/-- State of a Hydrobond client instance: the held Authorization and the
default authorization header of the axios instance, none when unset. The
endpoint only fixes the base URL of requests and does not affect any
claim, so it is not carried. -/
structure HydrobondState where
  auth : Authorization
  axiosAuthHeader : Option String
deriving DecidableEq

/-- Uppercase hex digit of a value below sixteen, as the WHATWG URL
serializer emits percent-escapes. -/
def hexUpper (n : Nat) : Char :=
  if n < 10 then Char.ofNat (48 + n) else Char.ofNat (55 + n)

/-- Percent-escape of one byte, uppercase hex. -/
def percentEncodeByte (b : Nat) : List Char :=
  ['%', hexUpper (b / 16 % 16), hexUpper (b % 16)]

/-- UTF-8 bytes of a scalar value, as percent-encoding applies to the
UTF-8 encoding of a code point. -/
def utf8Bytes (c : Char) : List Nat :=
  let n := c.toNat
  if n < 0x80 then [n]
  else if n < 0x800 then [0xC0 + n / 64, 0x80 + n % 64]
  else if n < 0x10000 then
    [0xE0 + n / 4096, 0x80 + n / 64 % 64, 0x80 + n % 64]
  else
    [0xF0 + n / 262144, 0x80 + n / 4096 % 64, 0x80 + n / 64 % 64,
     0x80 + n % 64]

/-- The special-scheme query percent-encode set of the WHATWG URL
standard: C0 controls, code points above tilde, space, the double quote
(0x22), less-than, greater-than, and for special schemes such as the
http origins used here also the apostrophe (0x27). -/
def inQueryEncodeSet (c : Char) : Bool :=
  decide (c.toNat ≤ 0x1F) || decide (0x7E < c.toNat) ||
  decide (c.toNat = 0x20) || decide (c.toNat = 0x22) ||
  decide (c.toNat = 0x3C) || decide (c.toNat = 0x3E) ||
  decide (c.toNat = 0x27)

/-- The fragment percent-encode set of the WHATWG URL standard: C0
controls, code points above tilde, space, the double quote (0x22),
less-than, greater-than, and the backtick (0x60). -/
def inFragmentEncodeSet (c : Char) : Bool :=
  decide (c.toNat ≤ 0x1F) || decide (0x7E < c.toNat) ||
  decide (c.toNat = 0x20) || decide (c.toNat = 0x22) ||
  decide (c.toNat = 0x3C) || decide (c.toNat = 0x3E) ||
  decide (c.toNat = 0x60)

/-- One character written by the URL serializer: percent-escaped when it
lies in the given encode set, verbatim otherwise. -/
def encodeWith (enc : Char → Bool) (c : Char) : List Char :=
  if enc c then ((utf8Bytes c).map percentEncodeByte).flatten else [c]

/-- The URL parser in query state: a hash ends the query and starts the
fragment (written with the fragment encode set); every other character
is written with the query encode set. -/
def serializeFromQuery : List Char → List Char
  | [] => []
  | c :: rest =>
    if c = '#' then
      '#' :: (rest.map (encodeWith inFragmentEncodeSet)).flatten
    else encodeWith inQueryEncodeSet c ++ serializeFromQuery rest

/-- The URL parser in path state: a question mark starts the query, a
hash starts the fragment; other characters pass verbatim (the fixed path
of the source, /oauth/authorize, contains no character the path encode
set would touch, so path escaping is not modelled further). -/
def serializeFromPath : List Char → List Char
  | [] => []
  | c :: rest =>
    if c = '?' then '?' :: serializeFromQuery rest
    else if c = '#' then
      '#' :: (rest.map (encodeWith inFragmentEncodeSet)).flatten
    else c :: serializeFromPath rest

/-- Serialization of the relative URL the source interpolates, as the
WHATWG parser inside new URL processes it: the serialized form is what
the returned URL object prints and what its searchParams read. -/
def serializeUrl (raw : String) : String :=
  ⟨serializeFromPath raw.toList⟩

/-- The URL returned by getAuthorizeUrl, built by template literal
interpolation with no escaping of the interpolated values, then parsed
and serialized by new URL, which percent-encodes the query and truncates
it at any hash. The source resolves against the endpoint origin, which
leaves the path, query and fragment components unchanged, so the origin
prefix is not carried. Fails with the ConfigError kind when clientId is
the empty string. -/
def getAuthorizeUrl (h : HydrobondState) : Except HydroError String :=
  if h.auth.clientId = "" then .error (.configError "clientId is not set")
  else .ok (serializeUrl ("/oauth/authorize?client_id=" ++ h.auth.clientId ++
    "&response_type=code&state=" ++ h.auth.stateText))

/-- Split a character list at every occurrence of the separator. -/
def splitOnChar (sep : Char) : List Char → List (List Char)
  | [] => [[]]
  | c :: rest =>
    let r := splitOnChar sep rest
    if c = sep then [] :: r
    else
      match r with
      | [] => [[c]]
      | seg :: segs => (c :: seg) :: segs

/-- Split a key-value segment at the first equals sign; a segment with no
equals sign has the empty value. -/
def splitKeyValue : List Char → List Char × List Char
  | [] => ([], [])
  | c :: rest =>
    if c = '=' then ([], rest)
    else
      let p := splitKeyValue rest
      (c :: p.1, p.2)

/-- Everything before the first hash: the fragment is not part of the
query component. -/
def untilHash : List Char → List Char
  | [] => []
  | c :: rest => if c = '#' then [] else c :: untilHash rest

/-- The query component of a URL string: everything after the first
question mark, empty when there is none. -/
def queryPart : List Char → List Char
  | [] => []
  | c :: rest => if c = '?' then rest else queryPart rest

/-- Numeric value of a hex digit character, either case, as
percent-decoding accepts both. -/
def hexVal (c : Char) : Option Nat :=
  if 48 ≤ c.toNat ∧ c.toNat ≤ 57 then some (c.toNat - 48)
  else if 97 ≤ c.toNat ∧ c.toNat ≤ 102 then some (c.toNat - 87)
  else if 65 ≤ c.toNat ∧ c.toNat ≤ 70 then some (c.toNat - 55)
  else none

/-- The application/x-www-form-urlencoded decode URLSearchParams applies
to each name and value: plus becomes space, a percent followed by two
hex digits becomes the escaped byte, and anything else passes verbatim.
Decoded bytes are kept as individual byte-valued characters (multi-byte
UTF-8 escapes are not recombined into one code point; every claim here
stays within ASCII, where the two readings agree). -/
def formDecode : List Char → List Char
  | [] => []
  | c :: rest =>
    if c = '+' then ' ' :: formDecode rest
    else if c = '%' then
      match rest with
      | a :: b :: rest2 =>
        match hexVal a, hexVal b with
        | some ha, some hb => Char.ofNat (16 * ha + hb) :: formDecode rest2
        | _, _ => c :: formDecode (a :: b :: rest2)
      | [a] => c :: formDecode [a]
      | [] => [c]
    else c :: formDecode rest

/-- The query parameters of a serialized URL string as URLSearchParams
parses them, in order: the query runs from the first question mark to
any hash; segments between ampersands are split at their first equals
sign, and each name and value is form-urlencoded decoded. -/
def queryParams (url : String) : List (String × String) :=
  (splitOnChar '&' (queryPart (untilHash url.toList))).map
    (fun seg => (⟨formDecode (splitKeyValue seg).1⟩,
      ⟨formDecode (splitKeyValue seg).2⟩))

/-- The value of the first query parameter with the given key, as
URLSearchParams get returns the first match. -/
def getParam (url : String) (key : String) : Option String :=
  match (queryParams url).find? (fun p => p.1 = key) with
  | some p => some p.2
  | none => none

/-- A character both the query serializer and the form-urlencoded parser
pass through verbatim: printable ASCII other than space, excluding the
characters the query serializer escapes (double quote, apostrophe,
less-than, greater-than) and the characters special to query parsing
(hash 0x23, ampersand 0x26, plus 0x2B, percent 0x25). -/
def queryVerbatimChar (c : Char) : Bool :=
  decide (0x20 < c.toNat) && decide (c.toNat < 0x7F) &&
  !decide (c.toNat = 0x22) && !decide (c.toNat = 0x27) &&
  !decide (c.toNat = 0x3C) && !decide (c.toNat = 0x3E) &&
  !decide (c.toNat = 0x23) && !decide (c.toNat = 0x26) &&
  !decide (c.toNat = 0x2B) && !decide (c.toNat = 0x25)

/-- Token endpoint response as the source consumes it: the data object
cast to Authorization, of which only accessToken is read. -/
structure TokenResponse where
  accessToken : String
deriving DecidableEq

/-- The authorize operation. Fails with the ConfigError kind before any
request when clientId or clientSecret is empty; otherwise, given the
token endpoint response, stores the returned access token into the held
Authorization, sets the axios default authorization header from the held
token type and the new token, and returns the token together with the
updated state. -/
def authorize (h : HydrobondState) (authCode : String)
    (res : TokenResponse) : Except HydroError (String × HydrobondState) :=
  if h.auth.clientId = "" then .error (.configError "clientId is not set")
  else if h.auth.clientSecret = "" then .error (.configError "clientSecret is not set")
  else
    .ok (res.accessToken,
      ⟨⟨res.accessToken, h.auth.clientId, h.auth.clientSecret,
        h.auth.stateText, h.auth.tokenType⟩,
       some (h.auth.tokenType ++ " " ++ res.accessToken)⟩)

/-- The getTimeline operation. The two range checks of the source run
before the request, comparing the JavaScript number count against 100 and
against 1; only afterwards is the timeline fetched and each element of
the response data validated as a Post, in order. The responseData
argument stands for the data of the HTTP response. The sinceId argument
only feeds the request parameters. -/
def getTimeline (sinceId count : Option JSNum)
    (responseData : List JValue) : Except HydroError (List Post) :=
  if (match count with | some c => JSNum.gt c (.num 100) | none => false) then
    .error (.rangeError "count must be less than or equal to 100")
  else if (match count with | some c => JSNum.lt c (.num 1) | none => false) then
    .error (.rangeError "count must be greater than or equal to 1")
  else
    mapThrow Post.construct responseData

/-- Consumer-facing events of the stream event emitter. -/
inductive StreamEvent where
  | connectEvent : StreamEvent
  | messageEvent : Post → StreamEvent
  | closeEvent : JSNum → String → StreamEvent

/-- The type property of a parsed frame, when the frame is an object
whose type property is a string; the switch of the message handler
otherwise falls through to the default case. -/
def frameType (data : JValue) : Option String :=
  match data with
  | .obj fields =>
    match jLookup fields "type" with
    | some (.str s) => some s
    | _ => none
  | _ => none

/-- The frame the handler sends back on a ping. -/
def pingFrame : JValue := .obj [("type", .str "ping")]

/-- The message handler of Hydrobond.stream on one parsed inbound frame:
yields the frames sent back on the socket and the events emitted to the
consumer, or the error the handler raises. A message frame validates its
content as a Post and emits it; a ping frame answers with a ping frame
and emits nothing; a success frame emits the connect event; an error or
unrecognized frame raises. -/
def streamMessage (data : JValue) :
    Except HydroError (List JValue × List StreamEvent) :=
  match frameType data with
  | some "message" =>
    match data with
    | .obj fields =>
      match jLookup fields "content" with
      | some content =>
        (Post.construct content).map (fun p => ([], [.messageEvent p]))
      | none => .error (.streamError "content missing")
    | _ => .error (.streamError "not an object")
  | some "ping" => .ok ([pingFrame], [])
  | some "success" => .ok ([], [.connectEvent])
  | _ => .error (.streamError "unrecognized frame")

/-- Hex digit character class, lowercase as produced by the encoding. -/
def isHexChar (c : Char) : Bool :=
  c.isDigit || ('a' ≤ c && c ≤ 'f')

/-- A required property is absent from the input: the input is an object
without the key, or not an object at all (so that every property read
yields undefined). -/
def fieldAbsent (j : JValue) (key : String) : Prop :=
  match j with
  | .obj fields => jLookup fields key = none
  | _ => True

/-- The required properties of the Application schema. -/
def Application.requiredFields : List String := ["id", "name"]

/-- The required properties of the User schema. -/
def User.requiredFields : List String :=
  ["createdAt", "id", "name", "postsCount", "screenName", "updatedAt"]

/-- The required properties of the File schema. -/
def File.requiredFields : List String := ["id", "name", "variants"]

/-- The required properties of the Post schema. -/
def Post.requiredFields : List String :=
  ["application", "createdAt", "id", "text", "updatedAt", "user", "files"]

/-- The required properties of the PostBody schema; fileIds is optional. -/
def PostBody.requiredFields : List String := ["text"]

/-- The required properties of the UserSettings schema. -/
def UserSettings.requiredFields : List String := ["name"]

/-- The fileIds property of a PostBody input is well formed: absent, or
an array whose elements all validate as numbers. -/
def validOptFileIds (fields : List (String × JValue)) : Prop :=
  match jLookup fields "fileIds" with
  | none => True
  | some (.arr xs) => ∃ ids, mapThrow asNumElem xs = .ok ids
  | some _ => False

/-!
Supporting lemmas: inversion of successful validations, and absence of
the RangeError kind among validation failures.
-/

/-- A successful bind splits into a successful first step and a
successful continuation. -/
lemma bind_ok_inv {α β : Type} {x : Except HydroError α}
    {f : α → Except HydroError β} {b : β} (h : x >>= f = .ok b) :
    ∃ a, x = .ok a ∧ f a = .ok b := by
  cases x with
  | error e => simp [Bind.bind, Except.bind] at h
  | ok a => exact ⟨a, rfl, by simpa [Bind.bind, Except.bind] using h⟩

/-- A result that is not an error is a success. -/
lemma ok_of_not_isError {α : Type} {e : Except HydroError α}
    (h : isError e = false) : ∃ a, e = .ok a := by
  cases e with
  | error e => simp [isError] at h
  | ok a => exact ⟨a, rfl⟩

/-- Binding preserves freedom from the RangeError kind. -/
lemma isRangeError_bind {α β : Type} {x : Except HydroError α}
    {f : α → Except HydroError β} (hx : isRangeError x = false)
    (hf : ∀ a, isRangeError (f a) = false) :
    isRangeError (x >>= f) = false := by
  cases x with
  | error e => cases e <;> simp_all [Bind.bind, Except.bind, isRangeError]
  | ok a => simpa [Bind.bind, Except.bind] using hf a

lemma getObjFields_ok {j : JValue} {fields : List (String × JValue)}
    (h : getObjFields j = .ok fields) : j = .obj fields := by
  unfold getObjFields at h
  split at h <;> simp_all

lemma reqNum_ok {fields : List (String × JValue)} {key : String} {n : JSNum}
    (h : reqNum fields key = .ok n) : jLookup fields key = some (.num n) := by
  unfold reqNum at h
  split at h <;> simp_all

lemma reqStr_ok {fields : List (String × JValue)} {key : String} {s : String}
    (h : reqStr fields key = .ok s) : jLookup fields key = some (.str s) := by
  unfold reqStr at h
  split at h <;> simp_all

lemma reqStrMax_ok {fields : List (String × JValue)} {key : String}
    {max : Nat} {s : String} (h : reqStrMax fields key max = .ok s) :
    jLookup fields key = some (.str s) ∧ s.length ≤ max := by
  unfold reqStrMax at h
  split at h
  case _ s' heq =>
    by_cases hl : s'.length ≤ max
    · rw [if_pos hl] at h
      cases h
      exact ⟨heq, hl⟩
    · rw [if_neg hl] at h
      cases h
  case _ => cases h

lemma reqStrRange_ok {fields : List (String × JValue)} {key : String}
    {lo hi : Nat} {s : String} (h : reqStrRange fields key lo hi = .ok s) :
    jLookup fields key = some (.str s) ∧ lo ≤ s.length ∧ s.length ≤ hi := by
  unfold reqStrRange at h
  split at h
  case _ s' heq =>
    by_cases hl : lo ≤ s'.length ∧ s'.length ≤ hi
    · rw [if_pos hl] at h
      cases h
      exact ⟨heq, hl⟩
    · rw [if_neg hl] at h
      cases h
  case _ => cases h

lemma reqScreenName_ok {fields : List (String × JValue)} {key : String}
    {s : String} (h : reqScreenName fields key = .ok s) :
    jLookup fields key = some (.str s) ∧ matchesScreenName s = true := by
  unfold reqScreenName at h
  split at h
  case _ s' heq =>
    by_cases hm : matchesScreenName s' = true
    · rw [if_pos hm] at h
      cases h
      exact ⟨heq, hm⟩
    · rw [if_neg hm] at h
      cases h
  case _ => cases h

lemma reqDate_ok {fields : List (String × JValue)} {key : String}
    {s : String} (h : reqDate fields key = .ok s) :
    jLookup fields key = some (.str s) ∧ Validator.isValidDate s = true := by
  unfold reqDate at h
  split at h
  case _ s' heq =>
    by_cases hd : Validator.isValidDate s' = true
    · rw [if_pos hd] at h
      cases h
      exact ⟨heq, hd⟩
    · rw [if_neg hd] at h
      cases h
  case _ => cases h

lemma reqUrl_ok {fields : List (String × JValue)} {key : String}
    {s : String} (h : reqUrl fields key = .ok s) :
    jLookup fields key = some (.str s) ∧ Validator.isValidUrl s = true := by
  unfold reqUrl at h
  split at h
  case _ s' heq =>
    by_cases hu : Validator.isValidUrl s' = true
    · rw [if_pos hu] at h
      cases h
      exact ⟨heq, hu⟩
    · rw [if_neg hu] at h
      cases h
  case _ => cases h

lemma reqAny_ok {fields : List (String × JValue)} {key : String} {v : JValue}
    (h : reqAny fields key = .ok v) : jLookup fields key = some v := by
  unfold reqAny at h
  split at h <;> simp_all

lemma reqArr_ok {fields : List (String × JValue)} {key : String}
    {xs : List JValue} (h : reqArr fields key = .ok xs) :
    jLookup fields key = some (.arr xs) := by
  unfold reqArr at h
  split at h <;> simp_all

/-- Every element of a successfully mapped list was itself accepted. -/
lemma mapThrow_ok_mem {α β : Type} {f : α → Except HydroError β}
    {xs : List α} {ys : List β} (h : mapThrow f xs = .ok ys) :
    ∀ x ∈ xs, ∃ y, f x = .ok y := by
  induction xs generalizing ys with
  | nil => simp
  | cons x xs ih =>
    unfold mapThrow at h
    obtain ⟨y, hy, h⟩ := bind_ok_inv h
    obtain ⟨ys', hys, h⟩ := bind_ok_inv h
    intro z hz
    rcases List.mem_cons.mp hz with rfl | hz
    · exact ⟨y, hy⟩
    · exact ih hys z hz

/-- Mapping a function free of the RangeError kind stays free of it. -/
lemma mapThrow_not_rangeError {α β : Type} {f : α → Except HydroError β}
    (hf : ∀ x, isRangeError (f x) = false) (xs : List α) :
    isRangeError (mapThrow f xs) = false := by
  induction xs with
  | nil => rfl
  | cons x xs ih =>
    unfold mapThrow
    exact isRangeError_bind (hf x)
      (fun y => isRangeError_bind ih (fun ys => rfl))

lemma isRangeError_ok {α : Type} (a : α) : isRangeError (.ok a) = false := rfl

lemma isRangeError_getObjFields (j : JValue) :
    isRangeError (getObjFields j) = false := by
  unfold getObjFields
  split <;> rfl

lemma isRangeError_reqNum (fields : List (String × JValue)) (key : String) :
    isRangeError (reqNum fields key) = false := by
  unfold reqNum
  split <;> rfl

lemma isRangeError_reqStr (fields : List (String × JValue)) (key : String) :
    isRangeError (reqStr fields key) = false := by
  unfold reqStr
  split <;> rfl

lemma isRangeError_reqStrMax (fields : List (String × JValue)) (key : String)
    (max : Nat) : isRangeError (reqStrMax fields key max) = false := by
  unfold reqStrMax
  split
  case _ => split <;> rfl
  case _ => rfl

lemma isRangeError_reqStrRange (fields : List (String × JValue)) (key : String)
    (lo hi : Nat) : isRangeError (reqStrRange fields key lo hi) = false := by
  unfold reqStrRange
  split
  case _ => split <;> rfl
  case _ => rfl

lemma isRangeError_reqScreenName (fields : List (String × JValue))
    (key : String) : isRangeError (reqScreenName fields key) = false := by
  unfold reqScreenName
  split
  case _ => split <;> rfl
  case _ => rfl

lemma isRangeError_reqDate (fields : List (String × JValue)) (key : String) :
    isRangeError (reqDate fields key) = false := by
  unfold reqDate
  split
  case _ => split <;> rfl
  case _ => rfl

lemma isRangeError_reqUrl (fields : List (String × JValue)) (key : String) :
    isRangeError (reqUrl fields key) = false := by
  unfold reqUrl
  split
  case _ => split <;> rfl
  case _ => rfl

lemma isRangeError_reqAny (fields : List (String × JValue)) (key : String) :
    isRangeError (reqAny fields key) = false := by
  unfold reqAny
  split <;> rfl

lemma isRangeError_reqArr (fields : List (String × JValue)) (key : String) :
    isRangeError (reqArr fields key) = false := by
  unfold reqArr
  split <;> rfl

/-- Application validation never raises the RangeError kind. -/
lemma isRangeError_Application_construct (j : JValue) :
    isRangeError (Application.construct j) = false := by
  unfold Application.construct
  exact isRangeError_bind (isRangeError_getObjFields j) (fun fields =>
    isRangeError_bind (isRangeError_reqNum fields "id") (fun _ =>
      isRangeError_bind (isRangeError_reqStr fields "name") (fun _ =>
        isRangeError_ok _)))

/-- User validation never raises the RangeError kind. -/
lemma isRangeError_User_construct (j : JValue) :
    isRangeError (User.construct j) = false := by
  unfold User.construct
  exact isRangeError_bind (isRangeError_getObjFields j) (fun fields =>
    isRangeError_bind (isRangeError_reqDate fields "createdAt") (fun _ =>
      isRangeError_bind (isRangeError_reqNum fields "id") (fun _ =>
        isRangeError_bind (isRangeError_reqStrRange fields "name" 1 20) (fun _ =>
          isRangeError_bind (isRangeError_reqNum fields "postsCount") (fun _ =>
            isRangeError_bind (isRangeError_reqScreenName fields "screenName") (fun _ =>
              isRangeError_bind (isRangeError_reqDate fields "updatedAt") (fun _ =>
                isRangeError_ok _)))))))

/-- Variant validation never raises the RangeError kind. -/
lemma isRangeError_FileVariant_construct (j : JValue) :
    isRangeError (FileVariant.construct j) = false := by
  unfold FileVariant.construct
  exact isRangeError_bind (isRangeError_getObjFields j) (fun fields =>
    isRangeError_bind (isRangeError_reqNum fields "id") (fun _ =>
      isRangeError_bind (isRangeError_reqNum fields "score") (fun _ =>
        isRangeError_bind (isRangeError_reqStr fields "extension") (fun _ =>
          isRangeError_bind (isRangeError_reqStr fields "type") (fun _ =>
            isRangeError_bind (isRangeError_reqNum fields "size") (fun _ =>
              isRangeError_bind (isRangeError_reqUrl fields "url") (fun _ =>
                isRangeError_bind (isRangeError_reqStr fields "mime") (fun _ =>
                  isRangeError_ok _))))))))

/-- File validation never raises the RangeError kind. -/
lemma isRangeError_File_construct (j : JValue) :
    isRangeError (File.construct j) = false := by
  unfold File.construct
  exact isRangeError_bind (isRangeError_getObjFields j) (fun fields =>
    isRangeError_bind (isRangeError_reqNum fields "id") (fun _ =>
      isRangeError_bind (isRangeError_reqStr fields "name") (fun _ =>
        isRangeError_bind (isRangeError_reqArr fields "variants") (fun raw =>
          isRangeError_bind
            (mapThrow_not_rangeError isRangeError_FileVariant_construct raw)
            (fun _ => isRangeError_ok _)))))

/-- Post validation, nested entities included, never raises the
RangeError kind: every failure of the validation layer carries the
ValidationError kind. -/
lemma isRangeError_Post_construct (j : JValue) :
    isRangeError (Post.construct j) = false := by
  unfold Post.construct
  exact isRangeError_bind (isRangeError_getObjFields j) (fun fields =>
    isRangeError_bind (isRangeError_reqAny fields "application") (fun rawApp =>
      isRangeError_bind (isRangeError_reqDate fields "createdAt") (fun _ =>
        isRangeError_bind (isRangeError_reqNum fields "id") (fun _ =>
          isRangeError_bind (isRangeError_reqStrMax fields "text" 512) (fun _ =>
            isRangeError_bind (isRangeError_reqDate fields "updatedAt") (fun _ =>
              isRangeError_bind (isRangeError_reqAny fields "user") (fun rawUser =>
                isRangeError_bind (isRangeError_reqArr fields "files") (fun rawFiles =>
                  isRangeError_bind (isRangeError_Application_construct rawApp) (fun _ =>
                    isRangeError_bind (isRangeError_User_construct rawUser) (fun _ =>
                      isRangeError_bind
                        (mapThrow_not_rangeError isRangeError_File_construct rawFiles)
                        (fun _ => isRangeError_ok _)))))))))))

/-- Inversion of a successful Application validation: the input was an
object carrying the copied fields. -/
lemma Application_construct_ok {j : JValue} {a : Application}
    (h : Application.construct j = .ok a) :
    ∃ fields, j = .obj fields ∧
      jLookup fields "id" = some (.num a.id) ∧
      jLookup fields "name" = some (.str a.name) := by
  unfold Application.construct at h
  obtain ⟨fields, hObj, h⟩ := bind_ok_inv h
  obtain ⟨idv, hId, h⟩ := bind_ok_inv h
  obtain ⟨namev, hName, h⟩ := bind_ok_inv h
  cases h
  exact ⟨fields, getObjFields_ok hObj, reqNum_ok hId, reqStr_ok hName⟩

/-- Inversion of a successful User validation: the input was an object
whose fields satisfy every declared constraint and were copied. -/
lemma User_construct_ok {j : JValue} {u : User}
    (h : User.construct j = .ok u) :
    ∃ fields, j = .obj fields ∧
      jLookup fields "createdAt" = some (.str u.createdAt) ∧
      Validator.isValidDate u.createdAt = true ∧
      jLookup fields "id" = some (.num u.id) ∧
      jLookup fields "name" = some (.str u.name) ∧
      1 ≤ u.name.length ∧ u.name.length ≤ 20 ∧
      jLookup fields "postsCount" = some (.num u.postsCount) ∧
      jLookup fields "screenName" = some (.str u.screenName) ∧
      matchesScreenName u.screenName = true ∧
      jLookup fields "updatedAt" = some (.str u.updatedAt) ∧
      Validator.isValidDate u.updatedAt = true := by
  unfold User.construct at h
  obtain ⟨fields, hObj, h⟩ := bind_ok_inv h
  obtain ⟨cav, hca, h⟩ := bind_ok_inv h
  obtain ⟨idv, hid, h⟩ := bind_ok_inv h
  obtain ⟨namev, hname, h⟩ := bind_ok_inv h
  obtain ⟨pcv, hpc, h⟩ := bind_ok_inv h
  obtain ⟨snv, hsn, h⟩ := bind_ok_inv h
  obtain ⟨uav, hua, h⟩ := bind_ok_inv h
  cases h
  obtain ⟨hca1, hca2⟩ := reqDate_ok hca
  obtain ⟨hname1, hname2, hname3⟩ := reqStrRange_ok hname
  obtain ⟨hsn1, hsn2⟩ := reqScreenName_ok hsn
  obtain ⟨hua1, hua2⟩ := reqDate_ok hua
  exact ⟨fields, getObjFields_ok hObj, hca1, hca2, reqNum_ok hid,
    hname1, hname2, hname3, reqNum_ok hpc, hsn1, hsn2, hua1, hua2⟩

/-- Inversion of a successful UserSettings validation. -/
lemma UserSettings_construct_ok {j : JValue} {u : UserSettings}
    (h : UserSettings.construct j = .ok u) :
    ∃ fields, j = .obj fields ∧
      jLookup fields "name" = some (.str u.name) ∧
      1 ≤ u.name.length ∧ u.name.length ≤ 20 := by
  unfold UserSettings.construct at h
  obtain ⟨fields, hObj, h⟩ := bind_ok_inv h
  obtain ⟨namev, hname, h⟩ := bind_ok_inv h
  cases h
  obtain ⟨h1, h2, h3⟩ := reqStrRange_ok hname
  exact ⟨fields, getObjFields_ok hObj, h1, h2, h3⟩

/-- Inversion of a successful File validation. -/
lemma File_construct_ok {j : JValue} {f : File}
    (h : File.construct j = .ok f) :
    ∃ fields rawVariants, j = .obj fields ∧
      jLookup fields "id" = some (.num f.id) ∧
      jLookup fields "name" = some (.str f.name) ∧
      jLookup fields "variants" = some (.arr rawVariants) ∧
      (∀ v ∈ rawVariants, ∃ fv, FileVariant.construct v = .ok fv) := by
  unfold File.construct at h
  obtain ⟨fields, hObj, h⟩ := bind_ok_inv h
  obtain ⟨idv, hid, h⟩ := bind_ok_inv h
  obtain ⟨namev, hname, h⟩ := bind_ok_inv h
  obtain ⟨raw, hraw, h⟩ := bind_ok_inv h
  obtain ⟨vars, hvars, h⟩ := bind_ok_inv h
  cases h
  exact ⟨fields, raw, getObjFields_ok hObj, reqNum_ok hid, reqStr_ok hname,
    reqArr_ok hraw, mapThrow_ok_mem hvars⟩

/-- Inversion of a successful Post validation: the object fields satisfy
the top level constraints, the text is copied unchanged, and the nested
application, user and files values each passed their own validation into
the corresponding nested entity of the result. -/
lemma Post_construct_ok {j : JValue} {p : Post}
    (h : Post.construct j = .ok p) :
    ∃ fields rawApp rawUser rawFiles, j = .obj fields ∧
      jLookup fields "application" = some rawApp ∧
      Application.construct rawApp = .ok p.application ∧
      jLookup fields "createdAt" = some (.str p.createdAt) ∧
      jLookup fields "id" = some (.num p.id) ∧
      jLookup fields "text" = some (.str p.text) ∧
      p.text.length ≤ 512 ∧
      jLookup fields "updatedAt" = some (.str p.updatedAt) ∧
      jLookup fields "user" = some rawUser ∧
      User.construct rawUser = .ok p.user ∧
      jLookup fields "files" = some (.arr rawFiles) ∧
      mapThrow File.construct rawFiles = .ok p.files := by
  unfold Post.construct at h
  obtain ⟨fields, hObj, h⟩ := bind_ok_inv h
  obtain ⟨rawApp, hra, h⟩ := bind_ok_inv h
  obtain ⟨cav, hca, h⟩ := bind_ok_inv h
  obtain ⟨idv, hid, h⟩ := bind_ok_inv h
  obtain ⟨textv, htext, h⟩ := bind_ok_inv h
  obtain ⟨uav, hua, h⟩ := bind_ok_inv h
  obtain ⟨rawUser, hru, h⟩ := bind_ok_inv h
  obtain ⟨rawFiles, hrf, h⟩ := bind_ok_inv h
  obtain ⟨appv, happ, h⟩ := bind_ok_inv h
  obtain ⟨userv, huser, h⟩ := bind_ok_inv h
  obtain ⟨filesv, hfiles, h⟩ := bind_ok_inv h
  cases h
  obtain ⟨htext1, htext2⟩ := reqStrMax_ok htext
  exact ⟨fields, rawApp, rawUser, rawFiles, getObjFields_ok hObj,
    reqAny_ok hra, happ, (reqDate_ok hca).1, reqNum_ok hid,
    htext1, htext2, (reqDate_ok hua).1, reqAny_ok hru, huser,
    reqArr_ok hrf, hfiles⟩

/-- Inversion of a successful PostBody validation. -/
lemma PostBody_construct_ok {j : JValue} {pb : PostBody}
    (h : PostBody.construct j = .ok pb) :
    ∃ fields, j = .obj fields ∧
      jLookup fields "text" = some (.str pb.text) ∧
      pb.text.length ≤ 512 ∧
      optNumArr fields "fileIds" = .ok pb.fileIds := by
  unfold PostBody.construct at h
  obtain ⟨fields, hObj, h⟩ := bind_ok_inv h
  obtain ⟨textv, htext, h⟩ := bind_ok_inv h
  obtain ⟨fidv, hfid, h⟩ := bind_ok_inv h
  cases h
  obtain ⟨htext1, htext2⟩ := reqStrMax_ok htext
  exact ⟨fields, getObjFields_ok hObj, htext1, htext2, hfid⟩

/-- The range checks of getTimeline reduce to the two JavaScript
comparisons of the source. -/
lemma getTimeline_some (sinceId : Option JSNum) (c : JSNum)
    (res : List JValue) :
    getTimeline sinceId (some c) res =
      if JSNum.gt c (.num 100) then
        .error (.rangeError "count must be less than or equal to 100")
      else if JSNum.lt c (.num 1) then
        .error (.rangeError "count must be greater than or equal to 1")
      else mapThrow Post.construct res := rfl

/-- C1: for every call getTimeline(sinceId?, count?), if count is
provided and count < 1 or count > 100 the call fails with RangeError
before any request is made (the result is a RangeError and does not
depend on the response data); if count = 1 or count = 100 the range
check passes and the call does not fail with RangeError. -/
theorem claim_C1 (sinceId : Option JSNum) (c : JSNum) (res : List JValue) :
    ((JSNum.lt c (.num 1) = true ∨ JSNum.gt c (.num 100) = true) →
      isRangeError (getTimeline sinceId (some c) res) = true ∧
      ∀ res', getTimeline sinceId (some c) res =
        getTimeline sinceId (some c) res') ∧
    isRangeError (getTimeline sinceId (some (.num 1)) res) = false ∧
    isRangeError (getTimeline sinceId (some (.num 100)) res) = false := by
  refine ⟨?_, ?_, ?_⟩
  · intro hc
    rw [getTimeline_some]
    by_cases hgt : JSNum.gt c (.num 100) = true
    · rw [if_pos hgt]
      exact ⟨rfl, fun res' => by rw [getTimeline_some, if_pos hgt]⟩
    · rw [if_neg hgt]
      rcases hc with hlt | hgt'
      · rw [if_pos hlt]
        exact ⟨rfl, fun res' => by rw [getTimeline_some, if_neg hgt, if_pos hlt]⟩
      · exact absurd hgt' hgt
  · rw [getTimeline_some]
    have hgt : JSNum.gt (.num 1) (.num 100) = false := by decide
    have hlt : JSNum.lt (.num 1) (.num 1) = false := by decide
    rw [hgt, hlt]
    simp only [Bool.false_eq_true, if_false]
    exact mapThrow_not_rangeError isRangeError_Post_construct res
  · rw [getTimeline_some]
    have hgt : JSNum.gt (.num 100) (.num 100) = false := by decide
    have hlt : JSNum.lt (.num 100) (.num 1) = false := by decide
    rw [hgt, hlt]
    simp only [Bool.false_eq_true, if_false]
    exact mapThrow_not_rangeError isRangeError_Post_construct res

theorem claim_C1_witness :
    isRangeError (getTimeline none (some (.num 0)) []) = true ∧
    isRangeError (getTimeline none (some (.num 101)) []) = true ∧
    isRangeError (getTimeline none (some (.num 1)) []) = false ∧
    isRangeError (getTimeline none (some (.num 100)) []) = false :=
  ⟨((claim_C1 none (.num 0) []).1 (Or.inl (by decide))).1,
   ((claim_C1 none (.num 101) []).1 (Or.inr (by decide))).1,
   (claim_C1 none (.num 1) []).2.1,
   (claim_C1 none (.num 100) []).2.2⟩

/-- C10: the range validation of getTimeline rejects exactly the counts
for which the JavaScript comparisons count > 100 or count < 1 evaluate
true; a count of NaN, or the non-integer 3/2, passes both checks and the
call proceeds to the request exactly as when no count is given, so the
check does not enforce that count is an integer in the interval. -/
theorem claim_C10 (sinceId : Option JSNum) (res : List JValue) :
    (∀ c : JSNum, isRangeError (getTimeline sinceId (some c) res) = true ↔
      (JSNum.gt c (.num 100) || JSNum.lt c (.num 1)) = true) ∧
    getTimeline sinceId (some .nan) res = getTimeline sinceId none res ∧
    getTimeline sinceId (some (.num (3 / 2))) res =
      getTimeline sinceId none res := by
  refine ⟨?_, ?_, ?_⟩
  · intro c
    constructor
    · intro h
      by_contra hb
      rw [Bool.or_eq_true, not_or] at hb
      obtain ⟨hgt, hlt⟩ := hb
      rw [getTimeline_some, if_neg hgt, if_neg hlt] at h
      rw [mapThrow_not_rangeError isRangeError_Post_construct res] at h
      cases h
    · intro h
      rcases Bool.or_eq_true_iff.mp h with hgt | hlt
      · rw [getTimeline_some, if_pos hgt]
        rfl
      · rw [getTimeline_some]
        by_cases hgt : JSNum.gt c (.num 100) = true
        · rw [if_pos hgt]
          rfl
        · rw [if_neg hgt, if_pos hlt]
          rfl
  · rfl
  · have hgt : JSNum.gt (.num (3 / 2)) (.num 100) = false := by
      simp only [JSNum.gt, decide_eq_false_iff_not]
      norm_num
    have hlt : JSNum.lt (.num (3 / 2)) (.num 1) = false := by
      simp only [JSNum.lt, decide_eq_false_iff_not]
      norm_num
    rw [getTimeline_some, hgt, hlt]
    simp only [Bool.false_eq_true, if_false]
    rfl

/-- Splitting a list free of the separator yields the single segment. -/
lemma splitOnChar_not_mem {sep : Char} {l : List Char} (h : sep ∉ l) :
    splitOnChar sep l = [l] := by
  induction l with
  | nil => rfl
  | cons c rest ih =>
    rw [List.mem_cons, not_or] at h
    obtain ⟨h1, h2⟩ := h
    simp only [splitOnChar, List.append_eq, ih h2]
    rw [if_neg (fun e => h1 e.symm)]

/-- Splitting past a first separator not occurring in the head part. -/
lemma splitOnChar_append {sep : Char} {l₁ l₂ : List Char} (h : sep ∉ l₁) :
    splitOnChar sep (l₁ ++ sep :: l₂) = l₁ :: splitOnChar sep l₂ := by
  induction l₁ with
  | nil =>
    simp only [List.nil_append, splitOnChar]
    simp
  | cons c rest ih =>
    rw [List.mem_cons, not_or] at h
    obtain ⟨h1, h2⟩ := h
    simp only [List.cons_append, splitOnChar, List.append_eq, ih h2]
    rw [if_neg (fun e => h1 e.symm)]

/-- Key-value splitting at the first equals sign. -/
lemma splitKeyValue_append {l₁ l₂ : List Char} (h : '=' ∉ l₁) :
    splitKeyValue (l₁ ++ '=' :: l₂) = (l₁, l₂) := by
  induction l₁ with
  | nil =>
    simp only [List.nil_append, splitKeyValue]
    simp
  | cons c rest ih =>
    rw [List.mem_cons, not_or] at h
    obtain ⟨h1, h2⟩ := h
    simp only [List.cons_append, splitKeyValue, List.append_eq, ih h2]
    rw [if_neg (fun e => h1 e.symm)]

/-- The query component starts after the first question mark. -/
lemma queryPart_append {l₁ l₂ : List Char} (h : '?' ∉ l₁) :
    queryPart (l₁ ++ '?' :: l₂) = l₂ := by
  induction l₁ with
  | nil =>
    simp only [List.nil_append, queryPart]
    simp
  | cons c rest ih =>
    rw [List.mem_cons, not_or] at h
    obtain ⟨h1, h2⟩ := h
    simp only [List.cons_append, queryPart, List.append_eq, ih h2]
    rw [if_neg (fun e => h1 e.symm)]

lemma string_mk_data (s : String) : (⟨s.data⟩ : String) = s := by
  cases s
  rfl

/-- Characters accepted by queryVerbatimChar are none of the characters
special to query parsing and lie outside the query percent-encode set. -/
lemma verbatim_facts {c : Char} (h : queryVerbatimChar c = true) :
    c ≠ '#' ∧ c ≠ '&' ∧ c ≠ '+' ∧ c ≠ '%' ∧ inQueryEncodeSet c = false := by
  unfold queryVerbatimChar at h
  simp only [Bool.and_eq_true, Bool.not_eq_true', decide_eq_true_eq,
    decide_eq_false_iff_not] at h
  obtain ⟨⟨⟨⟨⟨⟨⟨⟨⟨h1, h2⟩, h3⟩, h4⟩, h5⟩, h6⟩, h7⟩, h8⟩, h9⟩, h10⟩ := h
  refine ⟨?_, ?_, ?_, ?_, ?_⟩
  · intro e
    subst e
    exact h7 rfl
  · intro e
    subst e
    exact h8 rfl
  · intro e
    subst e
    exact h9 rfl
  · intro e
    subst e
    exact h10 rfl
  · unfold inQueryEncodeSet
    simp only [Bool.or_eq_false_iff, decide_eq_false_iff_not]
    omega

/-- The query serializer passes a list verbatim when no character is a
hash or lies in the query percent-encode set. -/
lemma serializeFromQuery_id {l : List Char}
    (h : ∀ c ∈ l, c ≠ '#' ∧ inQueryEncodeSet c = false) :
    serializeFromQuery l = l := by
  induction l with
  | nil => rfl
  | cons c rest ih =>
    obtain ⟨hh, he⟩ := h c (List.mem_cons_self c rest)
    unfold serializeFromQuery
    rw [if_neg hh]
    unfold encodeWith
    rw [he]
    simp only [Bool.false_eq_true, if_false]
    rw [ih (fun x hx => h x (List.mem_cons_of_mem _ hx))]
    rfl

/-- The path serializer up to the first question mark, when the path
part contains neither a question mark nor a hash. -/
lemma serializeFromPath_append {l₁ l₂ : List Char}
    (hq : '?' ∉ l₁) (hh : '#' ∉ l₁) :
    serializeFromPath (l₁ ++ '?' :: l₂) = l₁ ++ '?' :: serializeFromQuery l₂ := by
  induction l₁ with
  | nil =>
    simp only [List.nil_append, serializeFromPath]
    simp
  | cons c rest ih =>
    rw [List.mem_cons, not_or] at hq hh
    obtain ⟨hq1, hq2⟩ := hq
    obtain ⟨hh1, hh2⟩ := hh
    simp only [List.cons_append, serializeFromPath, List.append_eq, ih hq2 hh2]
    rw [if_neg (fun e => hq1 e.symm), if_neg (fun e => hh1 e.symm)]

/-- A list free of hashes is its own query-component prefix. -/
lemma untilHash_no_hash {l : List Char} (h : '#' ∉ l) : untilHash l = l := by
  induction l with
  | nil => rfl
  | cons c rest ih =>
    rw [List.mem_cons, not_or] at h
    obtain ⟨h1, h2⟩ := h
    simp only [untilHash, ih h2]
    rw [if_neg (fun e => h1 e.symm)]

/-- Form-urlencoded decoding passes a list verbatim when no character is
a plus or a percent. -/
lemma formDecode_id {l : List Char}
    (h : ∀ c ∈ l, c ≠ '+' ∧ c ≠ '%') : formDecode l = l := by
  induction l with
  | nil => rfl
  | cons c rest ih =>
    obtain ⟨hp, hpct⟩ := h c (List.mem_cons_self c rest)
    unfold formDecode
    rw [if_neg hp, if_neg hpct, ih (fun x hx => h x (List.mem_cons_of_mem _ hx))]

/-- The query parameters of the authorization URL built from a clientId
and stateText of verbatim characters are exactly the three expected
pairs, after WHATWG serialization and URLSearchParams decoding. -/
lemma queryParams_authorizeUrl {cid st : String}
    (hcid : ∀ c ∈ cid.data, queryVerbatimChar c = true)
    (hst : ∀ c ∈ st.data, queryVerbatimChar c = true) :
    queryParams (serializeUrl ("/oauth/authorize?client_id=" ++ cid ++
        "&response_type=code&state=" ++ st)) =
      [("client_id", cid), ("response_type", "code"), ("state", st)] := by
  have hcidf := fun c hc => verbatim_facts (hcid c hc)
  have hstf := fun c hc => verbatim_facts (hst c hc)
  have hdata : ("/oauth/authorize?client_id=" ++ cid ++
      "&response_type=code&state=" ++ st).toList =
      "/oauth/authorize".data ++ '?' ::
        (("client_id".data ++ '=' :: cid.data) ++ '&' ::
          (("response_type".data ++ '=' :: "code".data) ++ '&' ::
            ("state".data ++ '=' :: st.data))) := by
    show ("/oauth/authorize?client_id=" ++ cid ++
      "&response_type=code&state=" ++ st).data = _
    simp [String.data_append, List.append_assoc]
  have hQ : ∀ c ∈ ("client_id".data ++ '=' :: cid.data) ++ '&' ::
      (("response_type".data ++ '=' :: "code".data) ++ '&' ::
        ("state".data ++ '=' :: st.data)),
      c ≠ '#' ∧ inQueryEncodeSet c = false := by
    intro c hc
    rcases List.mem_append.mp hc with h | h
    · rcases List.mem_append.mp h with h | h
      · exact (by decide : ∀ x ∈ "client_id".data,
          x ≠ '#' ∧ inQueryEncodeSet x = false) c h
      · rcases List.mem_cons.mp h with rfl | h
        · exact (by decide)
        · exact ⟨(hcidf c h).1, (hcidf c h).2.2.2.2⟩
    · rcases List.mem_cons.mp h with rfl | h
      · exact (by decide)
      · rcases List.mem_append.mp h with h | h
        · rcases List.mem_append.mp h with h | h
          · exact (by decide : ∀ x ∈ "response_type".data,
              x ≠ '#' ∧ inQueryEncodeSet x = false) c h
          · rcases List.mem_cons.mp h with rfl | h
            · exact (by decide)
            · exact (by decide : ∀ x ∈ "code".data,
                x ≠ '#' ∧ inQueryEncodeSet x = false) c h
        · rcases List.mem_cons.mp h with rfl | h
          · exact (by decide)
          · rcases List.mem_append.mp h with h | h
            · exact (by decide : ∀ x ∈ "state".data,
                x ≠ '#' ∧ inQueryEncodeSet x = false) c h
            · rcases List.mem_cons.mp h with rfl | h
              · exact (by decide)
              · exact ⟨(hstf c h).1, (hstf c h).2.2.2.2⟩
  have hA : '&' ∉ "client_id".data ++ '=' :: cid.data := by
    intro hmem
    rcases List.mem_append.mp hmem with h | h
    · exact absurd h (by decide)
    · rcases List.mem_cons.mp h with h | h
      · exact absurd h (by decide)
      · exact (hcidf '&' h).2.1 rfl
  have hC : '&' ∉ "state".data ++ '=' :: st.data := by
    intro hmem
    rcases List.mem_append.mp hmem with h | h
    · exact absurd h (by decide)
    · rcases List.mem_cons.mp h with h | h
      · exact absurd h (by decide)
      · exact (hstf '&' h).2.1 rfl
  have hser : (serializeUrl ("/oauth/authorize?client_id=" ++ cid ++
      "&response_type=code&state=" ++ st)).toList =
      "/oauth/authorize".data ++ '?' ::
        (("client_id".data ++ '=' :: cid.data) ++ '&' ::
          (("response_type".data ++ '=' :: "code".data) ++ '&' ::
            ("state".data ++ '=' :: st.data))) := by
    unfold serializeUrl
    show serializeFromPath ("/oauth/authorize?client_id=" ++ cid ++
      "&response_type=code&state=" ++ st).toList = _
    rw [hdata, serializeFromPath_append (by decide) (by decide),
      serializeFromQuery_id hQ]
  have hnoHash : '#' ∉ "/oauth/authorize".data ++ '?' ::
      (("client_id".data ++ '=' :: cid.data) ++ '&' ::
        (("response_type".data ++ '=' :: "code".data) ++ '&' ::
          ("state".data ++ '=' :: st.data))) := by
    intro hmem
    rcases List.mem_append.mp hmem with h | h
    · exact absurd h (by decide)
    · rcases List.mem_cons.mp h with h | h
      · exact absurd h (by decide)
      · exact (hQ '#' h).1 rfl
  have dc : formDecode cid.data = cid.data :=
    formDecode_id (fun c hc => ⟨(hcidf c hc).2.2.1, (hcidf c hc).2.2.2.1⟩)
  have ds : formDecode st.data = st.data :=
    formDecode_id (fun c hc => ⟨(hstf c hc).2.2.1, (hstf c hc).2.2.2.1⟩)
  unfold queryParams
  rw [hser, untilHash_no_hash hnoHash, queryPart_append (by decide),
    splitOnChar_append hA, splitOnChar_append (by decide),
    splitOnChar_not_mem hC]
  simp only [List.map]
  rw [splitKeyValue_append (by decide), splitKeyValue_append (by decide),
    splitKeyValue_append (by decide)]
  dsimp only
  rw [dc, ds]
  simp [string_mk_data]
  decide

/-- C4 counterexample: the claim that for every configuration with
non-empty clientId the returned URL contains a client_id query parameter
whose value matches the held clientId fails at a clientId containing an
ampersand, because getAuthorizeUrl interpolates it with no escaping and
the URL serializer passes the ampersand through: for the held clientId
a&b the call succeeds but the client_id query parameter of the returned
URL reads back as a, not a&b. -/
theorem claim_C4_counterexample :
    getAuthorizeUrl ⟨⟨"", "a&b", "", "xyz", "Bearer"⟩, none⟩ =
      .ok "/oauth/authorize?client_id=a&b&response_type=code&state=xyz" ∧
    getParam "/oauth/authorize?client_id=a&b&response_type=code&state=xyz"
      "client_id" = some "a" ∧
    some "a" ≠ some "a&b" := by
  refine ⟨?_, by decide, by decide⟩
  unfold getAuthorizeUrl
  rw [if_neg (by decide)]
  congr 1

/-- C4 (amended): getAuthorizeUrl fails with ConfigError when the held
clientId equals the empty string; otherwise, for every configuration
with non-empty clientId in which the held clientId and stateText consist
of printable ASCII characters other than space that the URL query
serializer emits verbatim and query parsing reads back verbatim (no
double quote, apostrophe, angle brackets, hash, ampersand, plus or
percent), the returned URL contains query parameters client_id,
response_type=code, and state whose values, as URLSearchParams reads
them, match the held clientId and stateText. (The amendment restricts
the original claim to values that round-trip through the WHATWG
percent-encoding of new URL and the form-urlencoded decoding of
URLSearchParams; outside that alphabet the raw interpolation of the
source breaks the correspondence.) -/
theorem claim_C4 (h : HydrobondState) :
    (h.auth.clientId = "" →
      getAuthorizeUrl h = .error (.configError "clientId is not set")) ∧
    (h.auth.clientId ≠ "" →
      (∀ c ∈ h.auth.clientId.data, queryVerbatimChar c = true) →
      (∀ c ∈ h.auth.stateText.data, queryVerbatimChar c = true) →
      ∃ url, getAuthorizeUrl h = .ok url ∧
        getParam url "client_id" = some h.auth.clientId ∧
        getParam url "response_type" = some "code" ∧
        getParam url "state" = some h.auth.stateText) := by
  constructor
  · intro hcid
    unfold getAuthorizeUrl
    rw [if_pos hcid]
  · intro hne hcid hst
    refine ⟨serializeUrl ("/oauth/authorize?client_id=" ++ h.auth.clientId ++
      "&response_type=code&state=" ++ h.auth.stateText), ?_, ?_, ?_, ?_⟩
    · unfold getAuthorizeUrl
      rw [if_neg hne]
    · unfold getParam
      rw [queryParams_authorizeUrl hcid hst]
      simp
    · unfold getParam
      rw [queryParams_authorizeUrl hcid hst]
      simp
    · unfold getParam
      rw [queryParams_authorizeUrl hcid hst]
      simp

theorem claim_C4_witness :
    getAuthorizeUrl ⟨⟨"", "", "", "xyz", "Bearer"⟩, none⟩ =
      .error (.configError "clientId is not set") ∧
    ∃ url, getAuthorizeUrl ⟨⟨"", "myclient", "", "xyz", "Bearer"⟩, none⟩ =
      .ok url ∧
      getParam url "client_id" = some "myclient" ∧
      getParam url "response_type" = some "code" ∧
      getParam url "state" = some "xyz" :=
  ⟨(claim_C4 ⟨⟨"", "", "", "xyz", "Bearer"⟩, none⟩).1 rfl,
   (claim_C4 ⟨⟨"", "myclient", "", "xyz", "Bearer"⟩, none⟩).2
     (by decide) (by decide) (by decide)⟩

lemma hexChar_isHex {n : Nat} (h : n < 16) : isHexChar (hexChar n) = true := by
  interval_cases n <;> decide

lemma bytesToHex_length (bs : List Nat) :
    (bytesToHex bs).length = 2 * bs.length := by
  unfold bytesToHex
  show ((bs.map byteToHex).flatten).length = 2 * bs.length
  induction bs with
  | nil => rfl
  | cons b bs ih =>
    simp only [List.map_cons, List.flatten_cons, List.length_append, ih,
      byteToHex, List.length_cons, List.length_nil, List.length_cons]
    ring

lemma bytesToHex_chars (bs : List Nat) :
    ∀ c ∈ (bytesToHex bs).toList, isHexChar c = true := by
  unfold bytesToHex
  show ∀ c ∈ (bs.map byteToHex).flatten, isHexChar c = true
  induction bs with
  | nil => simp
  | cons b bs ih =>
    intro c hc
    simp only [List.map_cons, List.flatten_cons, List.mem_append] at hc
    rcases hc with hc | hc
    · simp only [byteToHex, List.mem_cons, List.not_mem_nil, or_false] at hc
      rcases hc with rfl | rfl
      · exact hexChar_isHex (Nat.mod_lt _ (by norm_num))
      · exact hexChar_isHex (Nat.mod_lt _ (by norm_num))
    · exact ih c hc

/-- C9 counterexample: the claim that provided values are kept unchanged
fails at a provided empty-string tokenType, because the constructor uses
the JavaScript or-else operator, for which the empty string is falsy: the
constructed tokenType is Bearer, not the provided empty string. -/
theorem claim_C9_counterexample :
    (Authorization.construct ⟨none, none, none, none, some ""⟩
      [0, 0, 0, 0, 0, 0, 0, 0]).tokenType = "Bearer" ∧
    "Bearer" ≠ "" := ⟨rfl, by decide⟩

/-- C9 (amended): when tokenType is absent, or provided as the empty
string, the constructed Authorization has tokenType Bearer; when
stateText is absent, or provided as the empty string, a stateText is
generated at construction, the hex encoding of the supplied random bytes
(16 lowercase hex characters when there are 8 bytes); provided non-empty
values of tokenType and stateText are kept unchanged. (The amendment
weakens kept-unchanged to non-empty provided values: the empty string is
falsy for the or-else defaults of the source constructor.) -/
theorem claim_C9 (a : AuthorizationInput) (randBytes : List Nat) :
    ((a.tokenType = none ∨ a.tokenType = some "") →
      (Authorization.construct a randBytes).tokenType = "Bearer") ∧
    (∀ s, a.tokenType = some s → s ≠ "" →
      (Authorization.construct a randBytes).tokenType = s) ∧
    ((a.stateText = none ∨ a.stateText = some "") →
      (Authorization.construct a randBytes).stateText = bytesToHex randBytes ∧
      (randBytes.length = 8 →
        (Authorization.construct a randBytes).stateText.length = 16 ∧
        ∀ c ∈ (Authorization.construct a randBytes).stateText.toList,
          isHexChar c = true)) ∧
    (∀ s, a.stateText = some s → s ≠ "" →
      (Authorization.construct a randBytes).stateText = s) := by
  refine ⟨?_, ?_, ?_, ?_⟩
  · intro hab
    rcases hab with hab | hab <;>
      simp [Authorization.construct, jsOrStr, hab]
  · intro s hs hne
    simp [Authorization.construct, jsOrStr, hs, hne]
  · intro hab
    have hst : (Authorization.construct a randBytes).stateText =
        bytesToHex randBytes := by
      rcases hab with hab | hab <;>
        simp [Authorization.construct, jsOrStr, hab]
    refine ⟨hst, fun hlen => ⟨?_, ?_⟩⟩
    · rw [hst, bytesToHex_length, hlen]
    · rw [hst]
      exact bytesToHex_chars randBytes
  · intro s hs hne
    simp [Authorization.construct, jsOrStr, hs, hne]

theorem claim_C9_witness :
    (Authorization.construct ⟨none, none, none, none, none⟩
      [1, 2, 3, 4, 5, 6, 7, 255]).tokenType = "Bearer" ∧
    (Authorization.construct ⟨none, none, none, none, some "Basic"⟩
      [1, 2, 3, 4, 5, 6, 7, 255]).tokenType = "Basic" ∧
    (Authorization.construct ⟨none, none, none, none, none⟩
      [1, 2, 3, 4, 5, 6, 7, 255]).stateText =
        bytesToHex [1, 2, 3, 4, 5, 6, 7, 255] ∧
    (Authorization.construct ⟨none, none, none, none, none⟩
      [1, 2, 3, 4, 5, 6, 7, 255]).stateText.length = 16 ∧
    (Authorization.construct ⟨none, some "cid", none, some "mystate", none⟩
      [1, 2, 3, 4, 5, 6, 7, 255]).stateText = "mystate" :=
  ⟨(claim_C9 ⟨none, none, none, none, none⟩ [1, 2, 3, 4, 5, 6, 7, 255]).1
      (Or.inl rfl),
   (claim_C9 ⟨none, none, none, none, some "Basic"⟩
      [1, 2, 3, 4, 5, 6, 7, 255]).2.1 "Basic" rfl (by decide),
   ((claim_C9 ⟨none, none, none, none, none⟩ [1, 2, 3, 4, 5, 6, 7, 255]).2.2.1
      (Or.inl rfl)).1,
   (((claim_C9 ⟨none, none, none, none, none⟩ [1, 2, 3, 4, 5, 6, 7, 255]).2.2.1
      (Or.inl rfl)).2 rfl).1,
   (claim_C9 ⟨none, some "cid", none, some "mystate", none⟩
      [1, 2, 3, 4, 5, 6, 7, 255]).2.2.2 "mystate" rfl (by decide)⟩

/-- C6: authorize(code) fails with ConfigError when the held clientId or
clientSecret is the empty string, and that failure does not depend on
the token endpoint response (no request is consulted); on a successful
token endpoint response it returns the returned access token, updates
the held accessToken of the Authorization to it, and sets the default
request authorization header, built from the held token type and the new
token, used by all subsequent calls. -/
theorem claim_C6 (h : HydrobondState) (authCode : String)
    (res : TokenResponse) :
    ((h.auth.clientId = "" ∨ h.auth.clientSecret = "") →
      isConfigError (authorize h authCode res) = true ∧
      ∀ res', authorize h authCode res = authorize h authCode res') ∧
    (h.auth.clientId ≠ "" → h.auth.clientSecret ≠ "" →
      ∃ tok h', authorize h authCode res = .ok (tok, h') ∧
        tok = res.accessToken ∧
        h'.auth.accessToken = res.accessToken ∧
        h'.axiosAuthHeader =
          some (h.auth.tokenType ++ " " ++ res.accessToken)) := by
  constructor
  · intro hc
    by_cases hcid : h.auth.clientId = ""
    · constructor
      · unfold authorize
        rw [if_pos hcid]
        rfl
      · intro res'
        unfold authorize
        rw [if_pos hcid, if_pos hcid]
    · rcases hc with hc | hcs
      · exact absurd hc hcid
      · constructor
        · unfold authorize
          rw [if_neg hcid, if_pos hcs]
          rfl
        · intro res'
          unfold authorize
          rw [if_neg hcid, if_pos hcs, if_neg hcid, if_pos hcs]
  · intro hcid hcs
    refine ⟨res.accessToken,
      ⟨⟨res.accessToken, h.auth.clientId, h.auth.clientSecret,
        h.auth.stateText, h.auth.tokenType⟩,
       some (h.auth.tokenType ++ " " ++ res.accessToken)⟩, ?_, rfl, rfl, rfl⟩
    unfold authorize
    rw [if_neg hcid, if_neg hcs]

theorem claim_C6_witness :
    isConfigError (authorize ⟨⟨"", "", "sec", "st", "Bearer"⟩, none⟩
      "code1" ⟨"tok1"⟩) = true ∧
    ∃ tok h', authorize ⟨⟨"", "cid", "sec", "st", "Bearer"⟩, none⟩
        "code1" ⟨"tok1"⟩ = .ok (tok, h') ∧
      tok = "tok1" ∧ h'.auth.accessToken = "tok1" ∧
      h'.axiosAuthHeader = some ("Bearer" ++ " " ++ "tok1") :=
  ⟨((claim_C6 ⟨⟨"", "", "sec", "st", "Bearer"⟩, none⟩ "code1" ⟨"tok1"⟩).1
      (Or.inl rfl)).1,
   (claim_C6 ⟨⟨"", "cid", "sec", "st", "Bearer"⟩, none⟩ "code1" ⟨"tok1"⟩).2
      (by decide) (by decide)⟩

/-- C8: when the stream listener receives the inbound frame of type ping,
it sends the ping frame back on the same socket and emits no
consumer-facing event for that frame: the handler result for that frame
is exactly one outbound ping frame and an empty event list. -/
theorem claim_C8 :
    streamMessage (.obj [("type", .str "ping")]) = .ok ([pingFrame], []) ∧
    pingFrame = .obj [("type", .str "ping")] := ⟨rfl, rfl⟩

/-- A result that is never a success is an error. -/
lemma isError_of_not_ok {α : Type} {e : Except HydroError α}
    (h : ∀ a, e ≠ .ok a) : isError e = true := by
  cases e with
  | error e => rfl
  | ok a => exact absurd rfl (h a)

/-- Mapping the number-element check over an array of numbers recovers
exactly those numbers. -/
lemma mapThrow_asNumElem_map (ids : List JSNum) :
    mapThrow asNumElem (ids.map JValue.num) = .ok ids := by
  induction ids with
  | nil => rfl
  | cons n ids ih =>
    simp only [List.map_cons, mapThrow, asNumElem, Bind.bind, Except.bind, ih]

/-- C2: for every input object missing a required field, or violating a
declared length, range, or pattern constraint of its entity type, the
corresponding entity validation (Application, User, File, Post,
PostBody, UserSettings) fails, producing an error and hence no entity
value at all: in this embedding a failed construction returns no
partially constructed result by typing. -/
theorem claim_C2 :
    (∀ j key, key ∈ Application.requiredFields → fieldAbsent j key →
      isError (Application.construct j) = true) ∧
    (∀ j key, key ∈ User.requiredFields → fieldAbsent j key →
      isError (User.construct j) = true) ∧
    (∀ j key, key ∈ File.requiredFields → fieldAbsent j key →
      isError (File.construct j) = true) ∧
    (∀ j key, key ∈ Post.requiredFields → fieldAbsent j key →
      isError (Post.construct j) = true) ∧
    (∀ j key, key ∈ PostBody.requiredFields → fieldAbsent j key →
      isError (PostBody.construct j) = true) ∧
    (∀ j key, key ∈ UserSettings.requiredFields → fieldAbsent j key →
      isError (UserSettings.construct j) = true) ∧
    (∀ fields s, jLookup fields "name" = some (.str s) →
      (s.length = 0 ∨ 21 ≤ s.length) →
      isError (User.construct (.obj fields)) = true) ∧
    (∀ fields s, jLookup fields "screenName" = some (.str s) →
      matchesScreenName s = false →
      isError (User.construct (.obj fields)) = true) ∧
    (∀ fields s, jLookup fields "name" = some (.str s) →
      (s.length = 0 ∨ 21 ≤ s.length) →
      isError (UserSettings.construct (.obj fields)) = true) ∧
    (∀ fields s, jLookup fields "text" = some (.str s) → 513 ≤ s.length →
      isError (Post.construct (.obj fields)) = true) ∧
    (∀ fields s, jLookup fields "text" = some (.str s) → 513 ≤ s.length →
      isError (PostBody.construct (.obj fields)) = true) := by
  refine ⟨?_, ?_, ?_, ?_, ?_, ?_, ?_, ?_, ?_, ?_, ?_⟩
  · intro j key hkey habs
    apply isError_of_not_ok
    intro a hC
    obtain ⟨fields, rfl, hid, hname⟩ := Application_construct_ok hC
    have habs' : jLookup fields key = none := habs
    simp [Application.requiredFields] at hkey
    rcases hkey with rfl | rfl
    · rw [habs'] at hid
      exact Option.noConfusion hid
    · rw [habs'] at hname
      exact Option.noConfusion hname
  · intro j key hkey habs
    apply isError_of_not_ok
    intro u hC
    obtain ⟨fields, rfl, hca, _, hid, hname, _, _, hpc, hsn, _, hua, _⟩ :=
      User_construct_ok hC
    have habs' : jLookup fields key = none := habs
    simp [User.requiredFields] at hkey
    rcases hkey with rfl | rfl | rfl | rfl | rfl | rfl
    · rw [habs'] at hca
      exact Option.noConfusion hca
    · rw [habs'] at hid
      exact Option.noConfusion hid
    · rw [habs'] at hname
      exact Option.noConfusion hname
    · rw [habs'] at hpc
      exact Option.noConfusion hpc
    · rw [habs'] at hsn
      exact Option.noConfusion hsn
    · rw [habs'] at hua
      exact Option.noConfusion hua
  · intro j key hkey habs
    apply isError_of_not_ok
    intro f hC
    obtain ⟨fields, raw, rfl, hid, hname, hvars, _⟩ := File_construct_ok hC
    have habs' : jLookup fields key = none := habs
    simp [File.requiredFields] at hkey
    rcases hkey with rfl | rfl | rfl
    · rw [habs'] at hid
      exact Option.noConfusion hid
    · rw [habs'] at hname
      exact Option.noConfusion hname
    · rw [habs'] at hvars
      exact Option.noConfusion hvars
  · intro j key hkey habs
    apply isError_of_not_ok
    intro p hC
    obtain ⟨fields, rawApp, rawUser, rawFiles, rfl, hra, _, hca, hid,
      htext, _, hua, hru, _, hrf, _⟩ := Post_construct_ok hC
    have habs' : jLookup fields key = none := habs
    simp [Post.requiredFields] at hkey
    rcases hkey with rfl | rfl | rfl | rfl | rfl | rfl | rfl
    · rw [habs'] at hra
      exact Option.noConfusion hra
    · rw [habs'] at hca
      exact Option.noConfusion hca
    · rw [habs'] at hid
      exact Option.noConfusion hid
    · rw [habs'] at htext
      exact Option.noConfusion htext
    · rw [habs'] at hua
      exact Option.noConfusion hua
    · rw [habs'] at hru
      exact Option.noConfusion hru
    · rw [habs'] at hrf
      exact Option.noConfusion hrf
  · intro j key hkey habs
    apply isError_of_not_ok
    intro pb hC
    obtain ⟨fields, rfl, htext, _, _⟩ := PostBody_construct_ok hC
    have habs' : jLookup fields key = none := habs
    simp [PostBody.requiredFields] at hkey
    subst hkey
    rw [habs'] at htext
    exact Option.noConfusion htext
  · intro j key hkey habs
    apply isError_of_not_ok
    intro u hC
    obtain ⟨fields, rfl, hname, _, _⟩ := UserSettings_construct_ok hC
    have habs' : jLookup fields key = none := habs
    simp [UserSettings.requiredFields] at hkey
    subst hkey
    rw [habs'] at hname
    exact Option.noConfusion hname
  · intro fields s hlook hbad
    apply isError_of_not_ok
    intro u hC
    obtain ⟨fields', heq, _, _, _, hname, hlo, hhi, _, _, _, _, _⟩ :=
      User_construct_ok hC
    injection heq with heq
    subst heq
    rw [hlook] at hname
    injection hname with hname
    injection hname with hname
    subst hname
    omega
  · intro fields s hlook hbad
    apply isError_of_not_ok
    intro u hC
    obtain ⟨fields', heq, _, _, _, _, _, _, _, hsn, hmatch, _, _⟩ :=
      User_construct_ok hC
    injection heq with heq
    subst heq
    rw [hlook] at hsn
    injection hsn with hsn
    injection hsn with hsn
    subst hsn
    rw [hmatch] at hbad
    exact Bool.noConfusion hbad
  · intro fields s hlook hbad
    apply isError_of_not_ok
    intro u hC
    obtain ⟨fields', heq, hname, hlo, hhi⟩ := UserSettings_construct_ok hC
    injection heq with heq
    subst heq
    rw [hlook] at hname
    injection hname with hname
    injection hname with hname
    subst hname
    omega
  · intro fields s hlook hbad
    apply isError_of_not_ok
    intro p hC
    obtain ⟨fields', rawApp, rawUser, rawFiles, heq, _, _, _, _,
      htext, hlen, _, _, _, _, _⟩ := Post_construct_ok hC
    injection heq with heq
    subst heq
    rw [hlook] at htext
    injection htext with htext
    injection htext with htext
    subst htext
    omega
  · intro fields s hlook hbad
    apply isError_of_not_ok
    intro pb hC
    obtain ⟨fields', heq, htext, hlen, _⟩ := PostBody_construct_ok hC
    injection heq with heq
    subst heq
    rw [hlook] at htext
    injection htext with htext
    injection htext with htext
    subst htext
    omega

theorem claim_C2_witness :
    isError (Application.construct (.obj [("name", .str "app")])) = true ∧
    isError (User.construct (.obj
      [("createdAt", .str "2019-04-01T10:20:30Z"), ("id", .num (.num 7)),
       ("name", .str "alice"), ("postsCount", .num (.num 3)),
       ("screenName", .str "bad name"),
       ("updatedAt", .str "2019-04-02T10:20:30Z")])) = true ∧
    isError (PostBody.construct
      (.obj [("text", .str ⟨List.replicate 513 'a'⟩)])) = true :=
  ⟨claim_C2.1 (.obj [("name", .str "app")]) "id" (by decide) rfl,
   claim_C2.2.2.2.2.2.2.2.1
     [("createdAt", .str "2019-04-01T10:20:30Z"), ("id", .num (.num 7)),
      ("name", .str "alice"), ("postsCount", .num (.num 3)),
      ("screenName", .str "bad name"),
      ("updatedAt", .str "2019-04-02T10:20:30Z")] "bad name" rfl (by decide),
   claim_C2.2.2.2.2.2.2.2.2.2.2
     [("text", .str ⟨List.replicate 513 'a'⟩)] ⟨List.replicate 513 'a'⟩ rfl
     (by show 513 ≤ (List.replicate 513 'a').length
         rw [List.length_replicate])⟩

/-- C3: for every input object given to the Post validation, if the
nested application or user value, or any element of the files array,
fails its own entity validation, the Post construction itself fails: the
containing Post is never produced with an invalid nested entity. -/
theorem claim_C3 (fields : List (String × JValue)) :
    (∀ aj, jLookup fields "application" = some aj →
      isError (Application.construct aj) = true →
      isError (Post.construct (.obj fields)) = true) ∧
    (∀ uj, jLookup fields "user" = some uj →
      isError (User.construct uj) = true →
      isError (Post.construct (.obj fields)) = true) ∧
    (∀ fjs fj, jLookup fields "files" = some (.arr fjs) → fj ∈ fjs →
      isError (File.construct fj) = true →
      isError (Post.construct (.obj fields)) = true) := by
  refine ⟨?_, ?_, ?_⟩
  · intro aj hlook herr
    apply isError_of_not_ok
    intro p hC
    obtain ⟨fields', rawApp, rawUser, rawFiles, heq, hra, happ, _, _, _, _,
      _, _, _, _, _⟩ := Post_construct_ok hC
    injection heq with heq
    subst heq
    rw [hlook] at hra
    injection hra with hra
    subst hra
    rw [happ] at herr
    exact Bool.noConfusion herr
  · intro uj hlook herr
    apply isError_of_not_ok
    intro p hC
    obtain ⟨fields', rawApp, rawUser, rawFiles, heq, _, _, _, _, _, _, _,
      hru, huser, _, _⟩ := Post_construct_ok hC
    injection heq with heq
    subst heq
    rw [hlook] at hru
    injection hru with hru
    subst hru
    rw [huser] at herr
    exact Bool.noConfusion herr
  · intro fjs fj hlook hmem herr
    apply isError_of_not_ok
    intro p hC
    obtain ⟨fields', rawApp, rawUser, rawFiles, heq, _, _, _, _, _, _, _,
      _, _, hrf, hfiles⟩ := Post_construct_ok hC
    injection heq with heq
    subst heq
    rw [hlook] at hrf
    injection hrf with hrf
    injection hrf with hrf
    subst hrf
    obtain ⟨y, hy⟩ := mapThrow_ok_mem hfiles fj hmem
    rw [hy] at herr
    exact Bool.noConfusion herr

theorem claim_C3_witness :
    isError (Post.construct (.obj
      [("application", .obj []),
       ("createdAt", .str "2019-04-01T10:20:30Z"),
       ("id", .num (.num 2)), ("text", .str "hi"),
       ("updatedAt", .str "2019-04-01T10:20:31Z"),
       ("user", .obj
         [("createdAt", .str "2019-04-01T10:20:30Z"),
          ("id", .num (.num 7)), ("name", .str "alice"),
          ("postsCount", .num (.num 3)), ("screenName", .str "alice_01"),
          ("updatedAt", .str "2019-04-02T10:20:30Z")]),
       ("files", .arr [])])) = true :=
  (claim_C3
    [("application", .obj []),
     ("createdAt", .str "2019-04-01T10:20:30Z"),
     ("id", .num (.num 2)), ("text", .str "hi"),
     ("updatedAt", .str "2019-04-01T10:20:31Z"),
     ("user", .obj
       [("createdAt", .str "2019-04-01T10:20:30Z"),
        ("id", .num (.num 7)), ("name", .str "alice"),
        ("postsCount", .num (.num 3)), ("screenName", .str "alice_01"),
        ("updatedAt", .str "2019-04-02T10:20:30Z")]),
     ("files", .arr [])]).1 (.obj []) rfl (by decide)

/-- C5: the PostBody validation rejects every input whose text field has
length 513 or more, and accepts every otherwise-valid input (a present
text string and a well-formed optional fileIds) whose text has length
exactly 512, copying the text unchanged. -/
theorem claim_C5 (fields : List (String × JValue)) (s : String) :
    (jLookup fields "text" = some (.str s) → 513 ≤ s.length →
      isError (PostBody.construct (.obj fields)) = true) ∧
    (jLookup fields "text" = some (.str s) → s.length = 512 →
      validOptFileIds fields →
      ∃ pb, PostBody.construct (.obj fields) = .ok pb ∧ pb.text = s) := by
  constructor
  · intro hlook hbad
    apply isError_of_not_ok
    intro pb hC
    obtain ⟨fields', heq, htext, hlen, _⟩ := PostBody_construct_ok hC
    injection heq with heq
    subst heq
    rw [hlook] at htext
    injection htext with htext
    injection htext with htext
    subst htext
    omega
  · intro hlook hlen hvalid
    have h1 : reqStrMax fields "text" 512 = .ok s := by
      unfold reqStrMax
      rw [hlook]
      dsimp only
      rw [if_pos (by omega)]
    have h2 : ∃ v, optNumArr fields "fileIds" = .ok v := by
      unfold validOptFileIds at hvalid
      split at hvalid
      case _ heq =>
        exact ⟨none, by unfold optNumArr; rw [heq]⟩
      case _ xs heq =>
        obtain ⟨ids, hids⟩ := hvalid
        refine ⟨some ids, ?_⟩
        unfold optNumArr
        rw [heq]
        dsimp only
        rw [hids]
        rfl
      case _ => exact hvalid.elim
    obtain ⟨v, h2⟩ := h2
    refine ⟨⟨s, v⟩, ?_, rfl⟩
    unfold PostBody.construct
    simp [getObjFields, Bind.bind, Except.bind, h1, h2]

theorem claim_C5_witness :
    isError (PostBody.construct
      (.obj [("text", .str ⟨List.replicate 513 'b'⟩)])) = true ∧
    ∃ pb, PostBody.construct
        (.obj [("text", .str ⟨List.replicate 512 'b'⟩)]) = .ok pb ∧
      pb.text = ⟨List.replicate 512 'b'⟩ :=
  ⟨(claim_C5 [("text", .str ⟨List.replicate 513 'b'⟩)]
      ⟨List.replicate 513 'b'⟩).1 rfl
      (by show 513 ≤ (List.replicate 513 'b').length
          rw [List.length_replicate]),
   (claim_C5 [("text", .str ⟨List.replicate 512 'b'⟩)]
      ⟨List.replicate 512 'b'⟩).2 rfl
      (by show (List.replicate 512 'b').length = 512
          rw [List.length_replicate])
      trivial⟩

/-- C7: round-trip of primitive values. A Post validated from a raw
object carries exactly the text string of the raw object; a PostBody
validated from an input object carries exactly the input text, and its
fileIds are absent when the input property is absent and are exactly the
input numbers when the input property is an array of numbers. -/
theorem claim_C7 (fields : List (String × JValue)) :
    (∀ p, Post.construct (.obj fields) = .ok p →
      jLookup fields "text" = some (.str p.text)) ∧
    (∀ pb, PostBody.construct (.obj fields) = .ok pb →
      jLookup fields "text" = some (.str pb.text) ∧
      (jLookup fields "fileIds" = none → pb.fileIds = none) ∧
      (∀ ids, jLookup fields "fileIds" = some (.arr (ids.map JValue.num)) →
        pb.fileIds = some ids)) := by
  constructor
  · intro p hC
    obtain ⟨fields', rawApp, rawUser, rawFiles, heq, _, _, _, _,
      htext, _, _, _, _, _, _⟩ := Post_construct_ok hC
    injection heq with heq
    subst heq
    exact htext
  · intro pb hC
    obtain ⟨fields', heq, htext, _, hfid⟩ := PostBody_construct_ok hC
    injection heq with heq
    subst heq
    refine ⟨htext, ?_, ?_⟩
    · intro habs
      unfold optNumArr at hfid
      rw [habs] at hfid
      simp at hfid
      exact hfid.symm
    · intro ids heq2
      unfold optNumArr at hfid
      rw [heq2] at hfid
      dsimp only at hfid
      rw [mapThrow_asNumElem_map ids] at hfid
      simp [Except.map] at hfid
      exact hfid.symm

theorem claim_C7_witness :
    jLookup
      [("application", JValue.obj
          [("id", JValue.num (JSNum.num 1)), ("name", JValue.str "app")]),
       ("createdAt", JValue.str "2019-04-01T10:20:30Z"),
       ("id", JValue.num (JSNum.num 2)),
       ("text", JValue.str "hello"),
       ("updatedAt", JValue.str "2019-04-01T10:20:31Z"),
       ("user", JValue.obj
          [("createdAt", JValue.str "2019-04-01T10:20:30Z"),
           ("id", JValue.num (JSNum.num 7)), ("name", JValue.str "alice"),
           ("postsCount", JValue.num (JSNum.num 3)),
           ("screenName", JValue.str "alice_01"),
           ("updatedAt", JValue.str "2019-04-02T10:20:30Z")]),
       ("files", JValue.arr [])] "text" = some (JValue.str "hello") ∧
    (⟨"hi", some [JSNum.num 1]⟩ : PostBody).fileIds = some [JSNum.num 1] :=
  ⟨(claim_C7
      [("application", JValue.obj
          [("id", JValue.num (JSNum.num 1)), ("name", JValue.str "app")]),
       ("createdAt", JValue.str "2019-04-01T10:20:30Z"),
       ("id", JValue.num (JSNum.num 2)),
       ("text", JValue.str "hello"),
       ("updatedAt", JValue.str "2019-04-01T10:20:31Z"),
       ("user", JValue.obj
          [("createdAt", JValue.str "2019-04-01T10:20:30Z"),
           ("id", JValue.num (JSNum.num 7)), ("name", JValue.str "alice"),
           ("postsCount", JValue.num (JSNum.num 3)),
           ("screenName", JValue.str "alice_01"),
           ("updatedAt", JValue.str "2019-04-02T10:20:30Z")]),
       ("files", JValue.arr [])]).1
      ⟨⟨JSNum.num 1, "app"⟩, "2019-04-01T10:20:30Z", JSNum.num 2, "hello",
       "2019-04-01T10:20:31Z",
       ⟨"2019-04-01T10:20:30Z", JSNum.num 7, "alice", JSNum.num 3,
        "alice_01", "2019-04-02T10:20:30Z"⟩, []⟩ rfl,
   ((claim_C7 [("text", JValue.str "hi"),
       ("fileIds", JValue.arr [JValue.num (JSNum.num 1)])]).2
      ⟨"hi", some [JSNum.num 1]⟩ rfl).2.2 [JSNum.num 1] rfl⟩

end Hydrobond
